import Mathlib

/-!
Verification development for the usda-data-acquisition ingestion pipeline.

The Rust sources are shallowly embedded: pure decoding logic becomes Lean
functions, the relational store becomes an explicit association-list state,
network and regex-capture effects become explicit function parameters, and
Rust panics (`unwrap` on `None`/`Err`, out-of-bounds slicing, HashMap index
misses) are modelled as distinct error outcomes.
-/

namespace UsdaAcq

/-- Decidable equality of fallible results, so witnesses can evaluate. -/
instance {ε α : Type} [DecidableEq ε] [DecidableEq α] : DecidableEq (Except ε α)
  | .ok a, .ok b => decidable_of_iff (a = b) ⟨fun h => h ▸ rfl, fun h => by injection h⟩
  | .ok _, .error _ => isFalse (by intro h; cases h)
  | .error _, .ok _ => isFalse (by intro h; cases h)
  | .error e, .error f => decidable_of_iff (e = f) ⟨fun h => h ▸ rfl, fun h => by injection h⟩

/-! ## Calendar dates

`chrono::NaiveDate` values built with `NaiveDate::from_ymd(year, month, day)`
are modelled as a plain year/month/day triple.  (`from_ymd` panics on an
invalid calendar date; no claim below depends on that case.)  Where only
ordering and day-successor arithmetic matter (the persistence watermark),
dates are modelled as integers instead; the package model is polymorphic in
the date type. -/

structure Ymd where
  year : Nat
  month : Nat
  day : Nat
deriving DecidableEq, Repr

/-! ## Canonical package model (src/usda/mod.rs, src/common.rs) -/

/-- `USDADataPackageSection` (one Record): `report_date`, ordered independent
values, and the `entries` map (a Rust `HashMap<String, String>`, modelled as
an association list with insert-or-overwrite semantics). -/
structure USDADataPackageSection (δ : Type) where
  report_date : δ
  independent : List String
  entries : List (String × String)
deriving DecidableEq, Repr

/-- `USDADataPackage`: report name and mapping section-name to the ordered
sequence of Records. -/
structure USDADataPackage (δ : Type) where
  name : String
  sections : List (String × List (USDADataPackageSection δ))
deriving DecidableEq, Repr

/-! ### Character-level string primitives

The Rust string operations used by the pipeline (`to_lowercase`, `trim`,
`replace`, `starts_with`, `split`) are implemented over the underlying
character list, so that every definition evaluates inside the kernel.
`lowerStr` uses `Char.toLower` (ASCII-correct, which covers every string
the pipeline compares); `trimStr` drops the ASCII whitespace Rust's `trim`
also drops. -/

def lowerStr (s : String) : String := String.mk (s.data.map Char.toLower)

def trimStr (s : String) : String :=
  String.mk (((s.data.dropWhile Char.isWhitespace).reverse.dropWhile Char.isWhitespace).reverse)

def strStartsWith (l pat : String) : Bool := pat.data.isPrefixOf l.data

/-- `s.replace(" ", "_")`: the pattern and replacement are single
characters, so this is a character map. -/
def replaceSpaceUnderscore (s : String) : String :=
  String.mk (s.data.map (fun c => if c = ' ' then '_' else c))

def splitOnNlGo (acc : List Char) : List Char → List String
  | [] => [String.mk acc.reverse]
  | c :: rest =>
    if c = '\n' then String.mk acc.reverse :: splitOnNlGo [] rest
    else splitOnNlGo (c :: acc) rest

/-- Split on the newline character, keeping empty segments (the model of
`str::split('\n')`). -/
def splitOnNl (s : String) : List String := splitOnNlGo [] s.data

/-- `HashMap::insert` on a string-keyed map: overwrite the existing key in
place, otherwise append. -/
def insertEntry : List (String × String) → String → String → List (String × String)
  | [], k, v => [(k, v)]
  | e :: rest, k, v => if e.1 = k then (k, v) :: rest else e :: insertEntry rest k v

/-- Association-list lookup (first match), the model of `HashMap::get`. -/
def lookupEntry : List (String × String) → String → Option String
  | [], _ => none
  | e :: rest, k => if e.1 = k then some e.2 else lookupEntry rest k

/-- `structure.sections.entry(name).or_insert_with(Vec::new).push(sec)`:
append the record to the named section's vector, creating it if absent. -/
def pushSection {δ : Type} :
    List (String × List (USDADataPackageSection δ)) → String → USDADataPackageSection δ →
    List (String × List (USDADataPackageSection δ))
  | [], name, s => [(name, [s])]
  | e :: rest, name, s =>
    if e.1 = name then (e.1, e.2 ++ [s]) :: rest else e :: pushSection rest name s

/-! ## NOAA fixed-width decoders (src/noaa.rs) -/

/-- The nine named measurement-flag variants (src/noaa.rs lines 30-41). -/
inductive MeasurementFlag where
  | PrecipitationTotalFromTwoTwelveHourTotals
  | PrecipitationTotalFromFourSixHourTotals
  | HourlyPoint
  | ConvertedFromKnots
  | TemperatureLaggedFromObservation
  | ConvertedFromOktas
  | MissingPresumedZero
  | TraceOfPrecipitation
  | ConvertedFromWBANCode
deriving DecidableEq, Repr

/-- `impl Deserialize for MeasurementFlag` (src/noaa.rs lines 43-61): a
closed match on the flag string; anything unrecognized is a decode error. -/
def MeasurementFlag.deserialize (s : String) : Except String MeasurementFlag :=
  match s with
  | "B" => .ok .PrecipitationTotalFromTwoTwelveHourTotals
  | "D" => .ok .PrecipitationTotalFromFourSixHourTotals
  | "H" => .ok .HourlyPoint
  | "K" => .ok .ConvertedFromKnots
  | "L" => .ok .TemperatureLaggedFromObservation
  | "O" => .ok .ConvertedFromOktas
  | "P" => .ok .MissingPresumedZero
  | "T" => .ok .TraceOfPrecipitation
  | "W" => .ok .ConvertedFromWBANCode
  | q => .error ("Unknown measurement flag: " ++ q)

/-- The fourteen named quality-flag variants (src/noaa.rs lines 80-96). -/
inductive QualityFlag where
  | Duplicate
  | Gap
  | InternalConsistency
  | StreakFrequent
  | Length
  | Megaconsistency
  | Naught
  | ClimatologicalOutlier
  | LaggedRange
  | SpatialConsistency
  | TemporalConsistency
  | TooWarmForSnow
  | FailedBoundsCheck
  | FlaggedDatzilla
deriving DecidableEq, Repr

/-- `impl Deserialize for QualityFlag` (src/noaa.rs lines 98-121). -/
def QualityFlag.deserialize (s : String) : Except String QualityFlag :=
  match s with
  | "D" => .ok .Duplicate
  | "G" => .ok .Gap
  | "I" => .ok .InternalConsistency
  | "K" => .ok .StreakFrequent
  | "L" => .ok .Length
  | "M" => .ok .Megaconsistency
  | "N" => .ok .Naught
  | "O" => .ok .ClimatologicalOutlier
  | "R" => .ok .LaggedRange
  | "S" => .ok .SpatialConsistency
  | "T" => .ok .TemporalConsistency
  | "W" => .ok .TooWarmForSnow
  | "X" => .ok .FailedBoundsCheck
  | "Z" => .ok .FlaggedDatzilla
  | q => .error ("Unknown quality flag: " ++ q)

/-- The single-character codes accepted by `MeasurementFlag::deserialize`. -/
def measurementFlagCodes : List Char := ['B', 'D', 'H', 'K', 'L', 'O', 'P', 'T', 'W']

/-- The single-character codes accepted by `QualityFlag::deserialize`. -/
def qualityFlagCodes : List Char :=
  ['D', 'G', 'I', 'K', 'L', 'M', 'N', 'O', 'R', 'S', 'T', 'W', 'X', 'Z']

/-- `value_process` (src/noaa.rs lines 144-153): the parsed 5-byte signed
integer; the sentinel -9999 decodes to an absent value. -/
def value_process (input : Int) : Option Int :=
  if input = -9999 then none else some input

/-! ## Schema configuration (src/usda/datamart.rs lines 10-23) -/

/-- `DatamartSection`: optional table-name alias (the Rust field `alias`,
renamed because `alias` is a Lean keyword), independent columns (first is
the date), field columns. -/
structure DatamartSection where
  alias_ : Option String
  independent : List String
  fields : List String
deriving DecidableEq, Repr

/-- `DatamartConfig`: report slug name, description, the independent (date)
column used in queries, and the per-section schemas (a `HashMap`, modelled
as an association list). -/
structure DatamartConfig where
  name : String
  description : String
  independent : String
  sections : List (String × DatamartSection)
deriving DecidableEq, Repr

/-- `structure.sections[&section]` lookup (panics in Rust when absent; the
absent case is surfaced by the callers below). -/
def lookupSection : List (String × DatamartSection) → String → Option DatamartSection
  | [], _ => none
  | e :: rest, k => if e.1 = k then some e.2 else lookupSection rest k

/-- Table identity (src/integration/usda.rs lines 13-16):
lower-cased `report_alias` when the section declares an alias, else
`report_section`. -/
def tableName (reportName sectionName : String) (sec : DatamartSection) : String :=
  lowerStr
    (match sec.alias_ with
     | some a => reportName ++ "_" ++ a
     | none => reportName ++ "_" ++ sectionName)

/-! ## Persistence layer (src/integration/usda.rs, create_table in src/main.rs)

The relational store is a map from table name to the table's rows.  A row
holds the columns inserted by `insert_usda_package`:
`(report_date, extra independent columns, variable_name, value, value_text)`.
The `value real` column is the result of Rust's `str::parse::<f32>`, which is
kept abstract as a parameter `p : String → Option ℚ` of the persistence
functions (its output never influences control flow). -/

structure Row (δ : Type) where
  report_date : δ
  indep : List String
  variable_name : String
  value : Option ℚ
  value_text : String
deriving DecidableEq, Repr

/-- The store: table name to rows.  A missing table models the
`client.prepare(..).unwrap()` panic path (statement preparation fails). -/
abbrev DB (δ : Type) := List (String × List (Row δ))

def dbGet {δ : Type} : DB δ → String → Option (List (Row δ))
  | [], _ => none
  | e :: rest, t => if e.1 = t then some e.2 else dbGet rest t

def dbSet {δ : Type} : DB δ → String → List (Row δ) → DB δ
  | [], _, _ => []
  | e :: rest, t, rows => if e.1 = t then (e.1, rows) :: rest else e :: dbSet rest t rows

/-- The conflict key of a row.  `create_table` (src/main.rs lines 179-205)
declares `constraint {table}_pkeys primary key (report_date, <independent
columns after the first>)`; `variable_name` is not part of the constraint.
The generated insert ends in `ON CONFLICT ON CONSTRAINT {table}_pkeys DO
NOTHING`, so this tuple is what conflict-ignore compares. -/
def rowKey {δ : Type} (r : Row δ) : δ × List String := (r.report_date, r.indep)

/-- Whether the table already stores a row with the given conflict key. -/
def hasKey {δ : Type} [DecidableEq δ] (tbl : List (Row δ)) (k : δ × List String) : Bool :=
  tbl.any (fun q => decide (rowKey q = k))

/-- `INSERT ... ON CONFLICT ON CONSTRAINT {table}_pkeys DO NOTHING`: append
the row unless a row with the same conflict key is already present. -/
def insertIgnore {δ : Type} [DecidableEq δ] (tbl : List (Row δ)) (r : Row δ) : List (Row δ) :=
  if hasKey tbl (rowKey r) then tbl else tbl ++ [r]

/-- `value.replace(",", "")` (src/integration/usda.rs line 42): the comma
pattern is a single character, so replacing it with the empty string drops
every comma. -/
def stripCommas (s : String) : String := String.mk (s.data.filter (fun c => c != ','))

/-- One `(key, value)` entry of a Record (src/integration/usda.rs lines
40-62): compute `value_numeric` by parsing the comma-stripped value; skip
the insert entirely when the raw value is empty; otherwise build the
parameter row `(report_date, independent[1..], key, value_numeric, value)`. -/
def entryRow {δ : Type} (p : String → Option ℚ) (report_date : δ)
    (independentTail : List String) (key value : String) : Option (Row δ) :=
  let value_numeric := p (stripCommas value)
  if value = "" then none
  else some { report_date := report_date, indep := independentTail,
              variable_name := key, value := value_numeric, value_text := value }

/-- All insert rows executed for one Record, in entry order. -/
def recordRows {δ : Type} (p : String → Option ℚ) (rec : USDADataPackageSection δ) :
    List (Row δ) :=
  rec.entries.filterMap (fun kv => entryRow p rec.report_date (rec.independent.drop 1) kv.1 kv.2)

/-- Process one package section against the store (the body of the outer
loop of `insert_usda_package`): resolve the section schema (Rust panics when
the section is unknown to the configuration), resolve the target table
(statement preparation; Rust panics when it fails), then execute the
conflict-ignore insert for every non-empty entry of every record. -/
def processSection {δ : Type} [DecidableEq δ] (p : String → Option ℚ) (cfg : DatamartConfig)
    (reportName : String) (db : DB δ) (sectionName : String)
    (results : List (USDADataPackageSection δ)) : Except String (DB δ) :=
  match lookupSection cfg.sections sectionName with
  | none => .error ("panic: section not in configuration: " ++ sectionName)
  | some secCfg =>
    match dbGet db (tableName reportName sectionName secCfg) with
    | none =>
      .error ("panic: failed to prepare insert statement for table " ++
        tableName reportName sectionName secCfg)
    | some tbl =>
      .ok (dbSet db (tableName reportName sectionName secCfg)
        (results.foldl (fun acc rec => (recordRows p rec).foldl insertIgnore acc) tbl))

def processSections {δ : Type} [DecidableEq δ] (p : String → Option ℚ) (cfg : DatamartConfig)
    (reportName : String) :
    List (String × List (USDADataPackageSection δ)) → DB δ → Except String (DB δ)
  | [], db => .ok db
  | (sectionName, results) :: rest, db =>
    match processSection p cfg reportName db sectionName results with
    | .error e => .error e
    | .ok db2 => processSections p cfg reportName rest db2

/-- `insert_usda_package` (src/integration/usda.rs lines 7-67): persist every
section of the package, then return `Ok(0)` — the function always returns
the literal row count 0. -/
def insert_usda_package {δ : Type} [DecidableEq δ] (p : String → Option ℚ)
    (package : USDADataPackage δ) (structure_ : DatamartConfig) (db : DB δ) :
    Except String (DB δ × Nat) :=
  match processSections p structure_ package.name package.sections db with
  | .error e => .error e
  | .ok db2 => .ok (db2, 0)

/-- Total number of rows stored across all tables. -/
def dbSize {δ : Type} (db : DB δ) : Nat := (db.map (fun e => e.2.length)).sum

/-- The second store extends the first: every table of the first is present
in the second, and every conflict key present there is still present. -/
def dbExtends {δ : Type} [DecidableEq δ] (db db2 : DB δ) : Prop :=
  ∀ t tbl, dbGet db t = some tbl →
    ∃ tbl2, dbGet db2 t = some tbl2 ∧ ∀ k, hasKey tbl k = true → hasKey tbl2 k = true

/-- The dates a running `MAX` accumulator stands for. -/
def optToList (acc : Option Int) : List Int :=
  match acc with
  | none => []
  | some a => [a]

/-! ## Watermark query (src/integration/usda.rs lines 69-113)

For the watermark, only date ordering and day-successor arithmetic matter,
so `NaiveDate` is modelled as an integer day number. -/

/-- One row's contribution to `SELECT MAX(report_date)`. -/
def sqlMaxStep (acc : Option Int) (r : Row Int) : Option Int :=
  match acc with
  | none => some r.report_date
  | some m => some (max m r.report_date)

/-- `SELECT MAX(report_date) FROM <table>`: `NULL` (`none`) on an empty
table, else the greatest date. -/
def sqlMaxDate (rows : List (Row Int)) : Option Int :=
  rows.foldl sqlMaxStep none

/-- The four-way match updating `max_date_found` against one table's
queried maximum (src/integration/usda.rs lines 92-101). -/
def combineAcc (acc value : Option Int) : Option Int :=
  match acc, value with
  | some date, some v => if date < v then some v else some date
  | none, some v => some v
  | some date, none => some date
  | none, none => none

/-- The per-section loop of `find_maximum_existing_datamart_date`: resolve
each section's table, query its maximum date, and keep the running maximum.
A missing table is the statement-preparation failure path. -/
def findMaxGo (reportName : String) (db : DB Int) :
    List (String × DatamartSection) → Option Int → Except String Int
  | [], acc =>
    match acc with
    | some d => .ok d
    | none => .error "No date found"
  | (sectionName, sec) :: rest, acc =>
    match dbGet db (tableName reportName sectionName sec) with
    | none =>
      .error ("Failed to prepare statement for table " ++ tableName reportName sectionName sec)
    | some rows => findMaxGo reportName db rest (combineAcc acc (sqlMaxDate rows))

/-- `find_maximum_existing_datamart_date` (src/integration/usda.rs lines
69-113): the maximum `report_date` across every section table of the
configured source, an error when a table cannot be queried or when no table
holds any row. -/
def find_maximum_existing_datamart_date (cfg : DatamartConfig) (db : DB Int) :
    Except String Int :=
  findMaxGo cfg.name db cfg.sections none

/-- All dates stored in the tables of the given section list (missing
tables contribute nothing; in the success path of the watermark query every
table is present). -/
def sectionDatesGo (reportName : String) (db : DB Int) :
    List (String × DatamartSection) → List Int
  | [] => []
  | (sn, sec) :: rest =>
    (match dbGet db (tableName reportName sn sec) with
     | some rows => rows.map (fun r => r.report_date)
     | none => []) ++ sectionDatesGo reportName db rest

/-- All dates stored in the source's section tables. -/
def sectionTableDates (cfg : DatamartConfig) (db : DB Int) : List Int :=
  sectionDatesGo cfg.name db cfg.sections

/-! ## Datamart fetch window (src/usda/datamart.rs lines 77-107) -/

/-- The shape of the query URL built by `process_datamart`: an exact
`report_date` query, a `minimum_date:today` range query, or an unfiltered
fetch. -/
inductive DatamartQuery where
  | exact (d : Int)
  | range (lo hi : Int)
  | unfiltered
deriving DecidableEq, Repr

/-- The date window selected by the URL construction of `process_datamart`
(src/usda/datamart.rs lines 77-107): `report_date` wins, else
`minimum_date` yields the range `minimum_date:today`, else no filter. -/
def datamartQueryMode (report_date minimum_date : Option Int) (today : Int) : DatamartQuery :=
  match report_date with
  | some d => .exact d
  | none =>
    match minimum_date with
    | some md => .range md today
    | none => .unfiltered

/-- Modelled from the spec: the incremental Sync Controller (spec section
4.5) is not present under src/ (src/main.rs predates it; only its two
callees, `find_maximum_existing_datamart_date` and `process_datamart`, are).
Per the spec it derives the watermark by querying the maximum persisted
date; with a watermark the fetch window starts at watermark + 1 day, with
no row anywhere it starts at the fixed fallback `epoch`; the window ends at
today, and the source is skipped with no network call when the window start
is after today.  `none` means no request is issued for the source this
cycle. -/
def syncDatamartSource (epoch : Int) (cfg : DatamartConfig) (db : DB Int) (today : Int) :
    Option DatamartQuery :=
  let start :=
    match find_maximum_existing_datamart_date cfg db with
    | .ok d => d + 1
    | .error _ => epoch
  if start ≤ today then some (datamartQueryMode none (some start) today) else none

/-! ## Date-pattern captures

`RE_DATAMART_DATE_CAPTURE` is `(?P<month>\d+)/(?P<day>\d+)/(?P<year>\d+)`
and legacy `RE_DATE_PARSE` is the same with `(?P<year>\d{4})`; both are
searched unanchored with leftmost-first semantics.  Because every pattern
element is a digit run or a literal slash, greedy matching with no
backtracking is equivalent: at a candidate start the maximal digit run must
be followed by the literal, and shortening the run can never help. -/

/-- Numeric value of a digit run (`str::parse` on the captured digits). -/
def natOfDigits (cs : List Char) : Nat :=
  cs.foldl (fun n c => n * 10 + (c.toNat - '0'.toNat)) 0

/-- Match `\d+ / \d+ / \d+` (or `\d{4}` for the year when `exact4`) at the
head of the character list, returning (month, day, year). -/
def matchDateAt (exact4 : Bool) (cs : List Char) : Option (Nat × Nat × Nat) :=
  let s1 := cs.span (fun c => c.isDigit)
  if s1.1.isEmpty then none
  else
    match s1.2 with
    | '/' :: rest2 =>
      let s2 := rest2.span (fun c => c.isDigit)
      if s2.1.isEmpty then none
      else
        match s2.2 with
        | '/' :: rest3 =>
          let s3 := rest3.span (fun c => c.isDigit)
          if exact4 then
            if s3.1.length < 4 then none
            else some (natOfDigits s1.1, natOfDigits s2.1, natOfDigits (s3.1.take 4))
          else
            if s3.1.isEmpty then none
            else some (natOfDigits s1.1, natOfDigits s2.1, natOfDigits s3.1)
        | _ => none
    | _ => none

/-- Leftmost-first unanchored search for the date pattern. -/
def scanDate (exact4 : Bool) : List Char → Option (Nat × Nat × Nat)
  | [] => none
  | c :: rest =>
    match matchDateAt exact4 (c :: rest) with
    | some r => some r
    | none => scanDate exact4 rest

/-- `RE_DATAMART_DATE_CAPTURE.captures` followed by `NaiveDate::from_ymd`
(src/usda/datamart.rs lines 149-166). -/
def datamartDateCapture (s : String) : Option Ymd :=
  (scanDate false s.data).map (fun r => ⟨r.2.2, r.1, r.2.1⟩)

/-- Legacy `RE_DATE_PARSE.captures` followed by `NaiveDate::from_ymd`
(src/legacy.rs lines 55-72): the year group is exactly four digits. -/
def captureDateMDY4 (s : String) : Option Ymd :=
  (scanDate true s.data).map (fun r => ⟨r.2.2, r.1, r.2.1⟩)

/-! ## REST result-row processing (src/usda/datamart.rs lines 134-206)

A response result row is a `HashMap<String, Option<String>>`: an absent key
is a missing column, `None` a SQL null.  Rust's `entry[key]` indexing panics
on a missing key; `entry.get(key)` returns an option. -/

/-- One REST result row. -/
abbrev RRow := List (String × Option String)

/-- `entry.get(k)` on a result row. -/
def rGet : RRow → String → Option (Option String)
  | [], _ => none
  | e :: rest, k => if e.1 = k then some e.2 else rGet rest k

/-- The value stored for a declared field column (src/usda/datamart.rs
lines 170-176): the response string when present, the empty string for a
null.  (The missing-column case never reaches this point: `entry[column]`
panics first.) -/
def fieldValue (entry : RRow) (c : String) : String :=
  match rGet entry c with
  | some (some s) => s
  | _ => ""

/-- The field-column loop (src/usda/datamart.rs lines 170-178): for every
declared field column, `entry[column]` (a panic, modelled as `none`, when
the column is missing from the row), empty string for null, and a map
insert.  `es` is the accumulated entries map. -/
def datamartFields : List String → RRow → List (String × String) → Option (List (String × String))
  | [], _, es => some es
  | c :: rest, entry, es =>
    match rGet entry c with
    | none => none
    | some v =>
      datamartFields rest entry
        (insertEntry es c (match v with | some s => s | none => ""))

/-- Outcome of the additional-independent-column loop. -/
inductive IndepOut where
  | ok (values : List String)
  | skip
  | fail (e : String)
deriving DecidableEq, Repr

/-- The independent-column loop (src/usda/datamart.rs lines 180-198): a
wholly absent column is a hard failure, a present-but-null value skips the
whole row, otherwise the value is pushed. -/
def datamartIndependent : List String → RRow → List String → IndepOut
  | [], _, acc => .ok acc
  | c :: rest, entry, acc =>
    match rGet entry c with
    | none => .fail ("Failed to find independent column " ++ c ++ " in response")
    | some none => .skip
    | some (some v) => datamartIndependent rest entry (acc ++ [v])

/-- Outcome of processing one result row: a produced Record, a logged
per-row skip, a hard failure (`return Err`), or a Rust panic. -/
inductive RowResult where
  | record (s : USDADataPackageSection Ymd)
  | skip
  | fail (e : String)
  | crash (e : String)
deriving DecidableEq, Repr

/-- Processing of one result row (src/usda/datamart.rs lines 136-200):
`entry[lookup]` (panic when the configured date column is missing), skip
with a warning when its value is null, parse the date (hard failure when
the pattern does not match), copy the declared field columns, then collect
the declared independent columns. -/
def processDatamartRow (lookup : String) (sec : DatamartSection) (entry : RRow) : RowResult :=
  match rGet entry lookup with
  | none => .crash ("key not found in response row: " ++ lookup)
  | some none => .skip
  | some (some value) =>
    match datamartDateCapture value with
    | none => .fail ("Failed to parse independent column from datamart response: " ++ value)
    | some independentDate =>
      match datamartFields sec.fields entry [] with
      | none => .crash "key not found in response row (field column)"
      | some es =>
        match datamartIndependent sec.independent entry [] with
        | .fail e => .fail e
        | .skip => .skip
        | .ok ind =>
          .record { report_date := independentDate, independent := ind, entries := es }

/-- The `'entries` loop over all result rows of one section response:
records accumulate in order, skipped rows contribute nothing, failures and
panics abort the section. -/
def processDatamartRows (lookup : String) (sec : DatamartSection) :
    List RRow → Except String (List (USDADataPackageSection Ymd))
  | [] => .ok []
  | entry :: rest =>
    match processDatamartRow lookup sec entry with
    | .record s =>
      match processDatamartRows lookup sec rest with
      | .ok l => .ok (s :: l)
      | .error e => .error e
    | .skip => processDatamartRows lookup sec rest
    | .fail e => .error e
    | .crash e => .error ("panic: " ++ e)

/-! ## ESMIS release fetch (src/usda/esmis.rs) -/

/-- `ESMISRelease` (src/usda/esmis.rs lines 8-22), with the fields the
fetch uses. -/
structure ESMISRelease where
  id : String
  files : List String
  title : List String
  release_datetime : String
  identifier : List String
deriving DecidableEq, Repr

/-- `%Y-%m-%d` with zero padding. -/
def pad2 (n : Nat) : String :=
  if n < 10 then "0" ++ toString n else toString n

def pad4 (n : Nat) : String :=
  if n < 10 then "000" ++ toString n
  else if n < 100 then "00" ++ toString n
  else if n < 1000 then "0" ++ toString n
  else toString n

def fmtYmdDash (d : Ymd) : String :=
  pad4 d.year ++ "-" ++ pad2 d.month ++ "-" ++ pad2 d.day

/-- `%m/%d/%Y`. -/
def fmtMDY (d : Ymd) : String :=
  pad2 d.month ++ "/" ++ pad2 d.day ++ "/" ++ pad4 d.year

def esmisApiRoot : String := "https://usda.library.cornell.edu/api/v1"

/-- The `target_url` construction of `fetch_releases_by_identifier`
(src/usda/esmis.rs lines 27-38): supplying exactly one of the two bounds is
an immediate error (the function returns before any request); both bounds
append the `start_date`/`end_date` query parameters. -/
def esmisTargetUrl (identifier : String) (start_date end_date : Option Ymd) :
    Except String String :=
  let base := esmisApiRoot ++ "/release/findByIdentifier/" ++ identifier
  match start_date, end_date with
  | none, some _ => .error "start_date and end_date must be specified together, or not at all."
  | some _, none => .error "start_date and end_date must be specified together, or not at all."
  | none, none => .ok base
  | some s, some e =>
    .ok (base ++ "?start_date=" ++ fmtYmdDash s ++ "&end_date=" ++ fmtYmdDash e)

/-- `fetch_releases_by_identifier` (src/usda/esmis.rs lines 26-66).  The
network transport plus JSON deserialization is the abstract parameter
`net`; the second component of the result is the list of URLs actually
requested.  `release.files.first().unwrap()` panics on a release with no
files. -/
def fetch_releases_by_identifier (net : String → Except String (List ESMISRelease))
    (identifier : String) (start_date end_date : Option Ymd) :
    Except String (Option (List String)) × List String :=
  match esmisTargetUrl identifier start_date end_date with
  | .error e => (.error e, [])
  | .ok url =>
    match net url with
    | .error e => (.error e, [url])
    | .ok parsed =>
      let firsts := parsed.map (fun r => r.files.head?)
      if firsts.any (fun o => o.isNone) then
        (.error "panic: release with no files", [url])
      else
        (.ok (some (firsts.filterMap id)), [url])

/-! ## Fixed-column text adapter: `lmxb463_text_parse` (src/legacy.rs lines 43-259)

The line/anchor structure, the date capture, and every error and panic path
are embedded concretely.  The per-line value captures (`RE_PRIMAL_VALUE`,
`RE_QUALITY_VALUE`, `RE_SALES_VALUE`, `RE_DESTINATION_VALUE`,
`RE_DELIVERY_VALUE`) only produce the label/value strings stored in the
entries maps and never influence which date a Record carries, so they are
abstract function parameters: `none` models "no match" (a `continue` for
the primal loop, an `unwrap` panic in the other four). -/

/-- `text.split_terminator('\n')`: like splitting on the newline, with a
trailing empty piece dropped. -/
def rustSplitTerminator (s : String) : List String :=
  let parts := splitOnNl s
  if parts.getLast? = some "" then parts.dropLast else parts

/-- `find_line_starts_with` (src/legacy.rs lines 33-41): zero-based index
of the first line starting with the pattern. -/
def find_line_starts_with (arr : List String) (pat : String) : Option Nat :=
  arr.findIdx? (fun l => strStartsWith l pat)

/-- `find_line_regex` with `RE_LOCATION_SALES`, i.e.
`(?i)^((Sales type breakdown:)|(TYPE OF SALES))`. -/
def findLineSales (arr : List String) : Option Nat :=
  arr.findIdx? (fun l =>
    strStartsWith (lowerStr l) "sales type breakdown:" ||
      strStartsWith (lowerStr l) "type of sales")

/-- `find_line_regex` with `RE_LOCATION_DESTINATION`, i.e.
`(?i)^Destination breakdown:`. -/
def findLineDestination (arr : List String) : Option Nat :=
  arr.findIdx? (fun l => strStartsWith (lowerStr l) "destination breakdown:")

/-- `find_line_regex` with `RE_LOCATION_DELIVERY`, i.e.
`(?i)^Delivery period breakdown:`. -/
def findLineDelivery (arr : List String) : Option Nat :=
  arr.findIdx? (fun l => strStartsWith (lowerStr l) "delivery period breakdown:")

/-- The character class of `RE_TOTAL_LOADS_CAPTURE`, `[0-9,]`. -/
def numCommaClass (c : Char) : Bool := c.isDigit || c = ','

def scanNumComma : List Char → Option String
  | [] => none
  | c :: rest =>
    if numCommaClass c then some (String.mk ((c :: rest).takeWhile numCommaClass))
    else scanNumComma rest

/-- `RE_TOTAL_LOADS_CAPTURE.captures`, pattern `([0-9,]+)` (src/legacy.rs
lines 90-103): the leftmost maximal run of digits and commas. -/
def captureNumComma (s : String) : Option String := scanNumComma s.data

/-- `&text_array[a..=b]`: the inclusive line slice; `none` models the Rust
out-of-bounds panic (every use below has `a ≤ b`). -/
def sliceInclusive (arr : List String) (a b : Nat) : Option (List String) :=
  if b < arr.length then some ((arr.drop a).take (b + 1 - a)) else none

/-- The named capture groups of `RE_PRIMAL_VALUE` (src/legacy.rs line 122). -/
structure PrimalCaps where
  label : String
  comprehensive : String
  prime : String
  branded : String
  choice : String
  select : String
  ungraded : String
deriving DecidableEq, Repr

/-- One matched primal-cutout line (src/legacy.rs lines 126-138): insert
`label__column` entries for the six value columns, with the label
lower-cased, trimmed and space-joined with underscores. -/
def primalInsert (caps : PrimalCaps) (es : List (String × String)) : List (String × String) :=
  let label := replaceSpaceUnderscore (trimStr (lowerStr caps.label))
  [("comprehensive", caps.comprehensive), ("prime", caps.prime), ("branded", caps.branded),
   ("choice", caps.choice), ("select", caps.select), ("ungraded", caps.ungraded)].foldl
    (fun es cv => insertEntry es (label ++ "__" ++ cv.1) cv.2) es

/-- The primal-cutout loop over the nine candidate lines: a non-matching
line is skipped (`continue`). -/
def primalEntries (cap : String → Option PrimalCaps) (lines : List String)
    (es : List (String × String)) : List (String × String) :=
  lines.foldl
    (fun es line =>
      match cap line with
      | some caps => primalInsert caps es
      | none => es)
    es

/-- The label/value line loops of the quality, sales-type, destination and
delivery sections: every line must match (`captures(..).unwrap()`, a panic
— modelled as `none` — otherwise); the sales/destination/delivery loops
trim the captured label, the quality loop does not. -/
def lvEntries (cap : String → Option (String × String)) (doTrim : Bool) :
    List String → List (String × String) → Option (List (String × String))
  | [], es => some es
  | line :: rest, es =>
    match cap line with
    | none => none
    | some lv =>
      lvEntries cap doTrim rest (insertEntry es (if doTrim then trimStr lv.1 else lv.1) lv.2)

/-- A section record of the LM_XB463 package: every one is created as
`USDADataPackageSection::new(report_date)` followed by pushing the
`%Y-%m-%d` date text as the sole independent value. -/
def lmxbSection (report_date : Ymd) (es : List (String × String)) :
    USDADataPackageSection Ymd :=
  { report_date := report_date, independent := [fmtYmdDash report_date], entries := es }

/-- The delivery-period step (src/legacy.rs lines 231-256) and the final
`Ok(structure)`: the anchor is optional; when present, the three following
lines must all match. -/
def lmxbDelivery (capDelivery : String → Option (String × String))
    (text_array : List String) (report_date : Ymd)
    (secs : List (String × List (USDADataPackageSection Ymd))) :
    Except String (USDADataPackage Ymd) :=
  match findLineDelivery text_array with
  | none => .ok { name := "LM_XB463", sections := secs }
  | some l0 =>
    match sliceInclusive text_array (l0 + 1) (l0 + 1 + 3) with
    | none => .error "panic: line range out of bounds (delivery)"
    | some lines =>
      match lvEntries capDelivery true lines [] with
      | none => .error "panic: delivery line did not match"
      | some es =>
        .ok { name := "LM_XB463",
              sections := pushSection secs "delivery" (lmxbSection report_date es) }

/-- The destination step (src/legacy.rs lines 204-229): optional anchor;
when present, the two following lines after the anchor line must match. -/
def lmxbDestination (capDestination capDelivery : String → Option (String × String))
    (text_array : List String) (report_date : Ymd)
    (secs : List (String × List (USDADataPackageSection Ymd))) :
    Except String (USDADataPackage Ymd) :=
  match findLineDestination text_array with
  | none => lmxbDelivery capDelivery text_array report_date secs
  | some d0 =>
    match sliceInclusive text_array (d0 + 1) (d0 + 1 + 2) with
    | none => .error "panic: line range out of bounds (destination)"
    | some lines =>
      match lvEntries capDestination true lines [] with
      | none => .error "panic: destination line did not match"
      | some es =>
        lmxbDelivery capDelivery text_array report_date
          (pushSection secs "destination" (lmxbSection report_date es))

/-- The body of `lmxb463_text_parse` (src/legacy.rs lines 43-259) over the
already-split line array. -/
def lmxb463_parse_lines (capPrimal : String → Option PrimalCaps)
    (capQuality capSales capDestination capDelivery : String → Option (String × String))
    (text_array : List String) : Except String (USDADataPackage Ymd) :=
  match find_line_starts_with text_array "For Week Ending:" with
  | none => .error "Failed to find date line"
  | some dateLoc =>
    match captureDateMDY4 (text_array.getD dateLoc "") with
    | none => .error "Failed to parse date line for report, aborting."
    | some report_date =>
      match (find_line_starts_with text_array "TOTAL LOADS OF PRODUCT REPORTED").orElse
          (fun _ => find_line_starts_with text_array "TOTAL LOADS") with
      | none => .error "Failed to find total load count location."
      | some loadsLoc =>
        match captureNumComma (text_array.getD loadsLoc "") with
        | none => .error "Failed to capture total loads for report, aborting."
        | some total_loads =>
          match find_line_starts_with text_array "Weekly Cutout Value" with
          | none => .error "Failed to locate cutout value line"
          | some cutLoc =>
            match sliceInclusive text_array cutLoc (cutLoc + 8) with
            | none => .error "panic: line range out of bounds (cutout)"
            | some cutLines =>
              match (find_line_starts_with text_array "Quality breakdown:").orElse
                  (fun _ => find_line_starts_with text_array "TOTAL LOADS") with
              | none => .error "Failed to locate quality section location"
              | some q0 =>
                match sliceInclusive text_array (q0 + 1) (q0 + 1 + 4) with
                | none => .error "panic: line range out of bounds (quality)"
                | some qLines =>
                  match lvEntries capQuality false qLines [] with
                  | none => .error "panic: quality line did not match"
                  | some qEntries =>
                    match findLineSales text_array with
                    | none => .error "Failed to locate sales section"
                    | some s0 =>
                      match sliceInclusive text_array (s0 + 1) (s0 + 1 + 3) with
                      | none => .error "panic: line range out of bounds (sales)"
                      | some sLines =>
                        match lvEntries capSales true sLines [] with
                        | none => .error "panic: sales line did not match"
                        | some sEntries =>
                          lmxbDestination capDestination capDelivery text_array report_date
                            (pushSection
                              (pushSection
                                (pushSection [] "summary"
                                  (lmxbSection report_date
                                    (primalEntries capPrimal cutLines
                                      [("total_loads", total_loads)])))
                                "quality" (lmxbSection report_date qEntries))
                              "sales_type" (lmxbSection report_date sEntries))

/-- `lmxb463_text_parse` (src/legacy.rs lines 43-259): split the document
into lines, then parse. -/
def lmxb463_text_parse (capPrimal : String → Option PrimalCaps)
    (capQuality capSales capDestination capDelivery : String → Option (String × String))
    (text : String) : Except String (USDADataPackage Ymd) :=
  lmxb463_parse_lines capPrimal capQuality capSales capDestination capDelivery
    (rustSplitTerminator text)

/-! ## Concrete evaluation fixtures

Small concrete inputs used by the witness and counterexample theorems
below. -/

/-- A stand-in for `str::parse::<f32>` that never parses (the persistence
control flow does not depend on the parse outcome). -/
def wParse : String → Option ℚ := fun _ => none

def wCfg : DatamartConfig :=
  { name := "LM_XB463", description := "", independent := "report_date",
    sections := [("summary", ⟨none, ["report_date"], ["total_loads"]⟩)] }

def wPkg : USDADataPackage Int :=
  { name := "LM_XB463",
    sections := [("summary", [{ report_date := 737497, independent := ["2020-03-14"],
                                entries := [("total_loads", "1,234")] }])] }

def wDB : DB Int := [("lm_xb463_summary", [])]

/-- The store after persisting `wPkg` into `wDB` once. -/
def wDB1 : DB Int :=
  [("lm_xb463_summary",
    [{ report_date := 737497, indep := [], variable_name := "total_loads",
       value := none, value_text := "1,234" }])]

/-- An LM_XB463 bulletin whose anchors and line counts drive the text parse
to success. -/
def wBulletin : String :=
  "For Week Ending: 03/14/2020\nTOTAL LOADS OF PRODUCT REPORTED 1,234\nWeekly Cutout Value\nx\nx\nx\nx\nx\nx\nx\nx\nQuality breakdown:\nq\nq\nq\nq\nq\nTYPE OF SALES\ns\ns\ns\ns\n"

/-- A document with no `For Week Ending:` anchor line. -/
def wBulletinNoAnchor : String := "hello\nworld\n"

/-- A document whose anchor line carries no month/day/4-digit-year date. -/
def wBulletinBadDate : String := "For Week Ending: sometime soon\n"

def wCapPrimal : String → Option PrimalCaps := fun _ => none

def wCapQuality : String → Option (String × String) := fun _ => some ("P", "1")

def wCapSales : String → Option (String × String) := fun _ => some ("S", "2")

def wCapDestination : String → Option (String × String) := fun _ => some ("D", "3")

def wCapDelivery : String → Option (String × String) := fun _ => some ("V", "4")

/-- The package `lmxb463_text_parse` produces from `wBulletin` with the
fixture captures. -/
def wBulletinPkg : USDADataPackage Ymd :=
  { name := "LM_XB463",
    sections :=
      [("summary", [{ report_date := ⟨2020, 3, 14⟩, independent := ["2020-03-14"],
                      entries := [("total_loads", "1,234")] }]),
       ("quality", [{ report_date := ⟨2020, 3, 14⟩, independent := ["2020-03-14"],
                      entries := [("P", "1")] }]),
       ("sales_type", [{ report_date := ⟨2020, 3, 14⟩, independent := ["2020-03-14"],
                         entries := [("S", "2")] }])] }

/-- A REST section schema with the date independent column and one declared
field column. -/
def wSec : DatamartSection := ⟨none, ["report_date"], ["price"]⟩

/-- A result row whose date column is present but null. -/
def wNullDateRow : RRow := [("report_date", none)]

/-- A well-formed result row. -/
def wGoodRow : RRow := [("report_date", some "01/02/2020"), ("price", some "3.5")]

/-- A result row that is not skipped (its date is present and parses) but
is missing the declared field column `price` entirely. -/
def wMissingFieldRow : RRow := [("report_date", some "01/02/2020")]

/-- The Record produced from `wGoodRow`. -/
def wGoodRec : USDADataPackageSection Ymd :=
  { report_date := ⟨2020, 1, 2⟩, independent := ["01/02/2020"],
    entries := [("price", "3.5")] }

/-- A one-table store for the watermark fixtures. -/
def wSyncDB : DB Int :=
  [("lm_xb463_summary",
    [{ report_date := 737497, indep := [], variable_name := "total_loads",
       value := none, value_text := "1,234" },
     { report_date := 737490, indep := [], variable_name := "total_loads",
       value := none, value_text := "9" }])]

/-- A dummy ESMIS network transport. -/
def wNet : String → Except String (List ESMISRelease) :=
  fun _ => .ok [{ id := "1", files := ["https://example.org/a.pdf"], title := ["t"],
                  release_datetime := "2020-03-14", identifier := ["LM_XB463"] }]

/-! ## Theorems -/

/-- Claim C2: in a fixed-width daily observation group, a parsed value of
-9999 decodes to an absent value, decoding never yields a present value of
-9999, and every other parsed integer decodes to itself. -/
theorem claim_c2_sentinel_absent :
    value_process (-9999) = none ∧
    (∀ v : Int, value_process v ≠ some (-9999)) ∧
    (∀ v : Int, v ≠ -9999 → value_process v = some v) := by
  refine ⟨rfl, ?_, ?_⟩
  · intro v h
    unfold value_process at h
    split at h
    · exact Option.noConfusion h
    · next hne => exact hne (Option.some.inj h)
  · intro v hv
    simp [value_process, hv]

theorem claim_c2_witness :
    value_process (-9999) = none ∧
    value_process 258 = some 258 ∧
    value_process 258 ≠ some (-9999) :=
  ⟨claim_c2_sentinel_absent.1,
   claim_c2_sentinel_absent.2.2 258 (by decide),
   claim_c2_sentinel_absent.2.1 258⟩

/-- Claim C4: each of the nine measurement-flag codes and fourteen
quality-flag codes decodes to its named variant, and any other
single-character input makes the decode return an error (never a default
variant). -/
theorem claim_c4_closed_flag_decode :
    (MeasurementFlag.deserialize "B" = .ok .PrecipitationTotalFromTwoTwelveHourTotals) ∧
    (MeasurementFlag.deserialize "D" = .ok .PrecipitationTotalFromFourSixHourTotals) ∧
    (MeasurementFlag.deserialize "H" = .ok .HourlyPoint) ∧
    (MeasurementFlag.deserialize "K" = .ok .ConvertedFromKnots) ∧
    (MeasurementFlag.deserialize "L" = .ok .TemperatureLaggedFromObservation) ∧
    (MeasurementFlag.deserialize "O" = .ok .ConvertedFromOktas) ∧
    (MeasurementFlag.deserialize "P" = .ok .MissingPresumedZero) ∧
    (MeasurementFlag.deserialize "T" = .ok .TraceOfPrecipitation) ∧
    (MeasurementFlag.deserialize "W" = .ok .ConvertedFromWBANCode) ∧
    (QualityFlag.deserialize "D" = .ok .Duplicate) ∧
    (QualityFlag.deserialize "G" = .ok .Gap) ∧
    (QualityFlag.deserialize "I" = .ok .InternalConsistency) ∧
    (QualityFlag.deserialize "K" = .ok .StreakFrequent) ∧
    (QualityFlag.deserialize "L" = .ok .Length) ∧
    (QualityFlag.deserialize "M" = .ok .Megaconsistency) ∧
    (QualityFlag.deserialize "N" = .ok .Naught) ∧
    (QualityFlag.deserialize "O" = .ok .ClimatologicalOutlier) ∧
    (QualityFlag.deserialize "R" = .ok .LaggedRange) ∧
    (QualityFlag.deserialize "S" = .ok .SpatialConsistency) ∧
    (QualityFlag.deserialize "T" = .ok .TemporalConsistency) ∧
    (QualityFlag.deserialize "W" = .ok .TooWarmForSnow) ∧
    (QualityFlag.deserialize "X" = .ok .FailedBoundsCheck) ∧
    (QualityFlag.deserialize "Z" = .ok .FlaggedDatzilla) ∧
    (∀ c : Char, c ∉ measurementFlagCodes →
      MeasurementFlag.deserialize (String.mk [c]) =
        .error ("Unknown measurement flag: " ++ String.mk [c])) ∧
    (∀ c : Char, c ∉ qualityFlagCodes →
      QualityFlag.deserialize (String.mk [c]) =
        .error ("Unknown quality flag: " ++ String.mk [c])) := by
  refine ⟨rfl, rfl, rfl, rfl, rfl, rfl, rfl, rfl, rfl, rfl, rfl, rfl, rfl, rfl, rfl, rfl,
    rfl, rfl, rfl, rfl, rfl, rfl, rfl, ?_, ?_⟩
  · intro c hc
    unfold MeasurementFlag.deserialize
    split <;> first
      | rfl
      | (rename_i h
         injection congrArg String.data h with h1 h2
         subst h1
         exact absurd (by decide) hc)
  · intro c hc
    unfold QualityFlag.deserialize
    split <;> first
      | rfl
      | (rename_i h
         injection congrArg String.data h with h1 h2
         subst h1
         exact absurd (by decide) hc)

theorem claim_c4_witness :
    MeasurementFlag.deserialize (String.mk ['Q']) =
      .error ("Unknown measurement flag: " ++ String.mk ['Q']) ∧
    QualityFlag.deserialize (String.mk ['B']) =
      .error ("Unknown quality flag: " ++ String.mk ['B']) :=
  ⟨claim_c4_closed_flag_decode.2.2.2.2.2.2.2.2.2.2.2.2.2.2.2.2.2.2.2.2.2.2.2.1 'Q' (by decide),
   claim_c4_closed_flag_decode.2.2.2.2.2.2.2.2.2.2.2.2.2.2.2.2.2.2.2.2.2.2.2.2 'B' (by decide)⟩

/-- Claim C5: for every `(key, raw value)` entry of every Record handed to
the persistence layer, an empty raw value produces no insert, and a
non-empty raw value produces exactly one insert row whose numeric column is
the parse of the comma-stripped value (null when the parse fails) and whose
text column is the raw value verbatim. -/
theorem claim_c5_entry_to_row {δ : Type} (p : String → Option ℚ) (rd : δ)
    (ind : List String) (k v : String) :
    (v = "" → entryRow p rd ind k v = none) ∧
    (v ≠ "" → entryRow p rd ind k v =
      some { report_date := rd, indep := ind, variable_name := k,
             value := p (stripCommas v), value_text := v }) ∧
    (∀ (ind0 : List String) (es : List (String × String)),
      recordRows p { report_date := rd, independent := ind0, entries := (k, v) :: es } =
        (match entryRow p rd (ind0.drop 1) k v with
         | none => []
         | some r => [r]) ++
          recordRows p { report_date := rd, independent := ind0, entries := es }) := by
  refine ⟨?_, ?_, ?_⟩
  · intro hv
    simp [entryRow, hv]
  · intro hv
    simp [entryRow, hv]
  · intro ind0 es
    simp only [recordRows, List.filterMap_cons]
    split <;> simp_all

theorem claim_c5_witness :
    entryRow wParse (0 : Int) [] "total_loads" "" = none ∧
    entryRow wParse (0 : Int) [] "total_loads" "1,234" =
      some { report_date := 0, indep := [], variable_name := "total_loads",
             value := wParse (stripCommas "1,234"), value_text := "1,234" } ∧
    recordRows wParse { report_date := (0 : Int), independent := ["d"],
                        entries := [("total_loads", "1,234")] } =
      (match entryRow wParse (0 : Int) (["d"].drop 1) "total_loads" "1,234" with
       | none => []
       | some r => [r]) ++
        recordRows wParse { report_date := (0 : Int), independent := ["d"], entries := [] } :=
  ⟨(claim_c5_entry_to_row wParse 0 [] "total_loads" "").1 rfl,
   (claim_c5_entry_to_row wParse 0 [] "total_loads" "1,234").2.1 (by decide),
   (claim_c5_entry_to_row wParse 0 [] "total_loads" "1,234").2.2 ["d"] []⟩

/-- Claim C9 (counterexample): persisting `wPkg` writes one row into the
store, yet `insert_usda_package` returns the row count 0: the returned
count does not equal the number of rows written. -/
theorem claim_c9_counterexample :
    insert_usda_package wParse wPkg wCfg wDB = .ok (wDB1, 0) ∧
    dbSize wDB1 = dbSize wDB + 1 ∧
    (0 : Nat) ≠ dbSize wDB1 - dbSize wDB := by
  refine ⟨by decide, by decide, by decide⟩

/-- Claim C9 (amended): whenever `insert_usda_package` returns successfully
it returns the row count 0, regardless of how many rows were written (the
source ends in the literal `Ok(0)`). -/
theorem claim_c9_returns_zero {δ : Type} [DecidableEq δ] (p : String → Option ℚ)
    (package : USDADataPackage δ) (cfg : DatamartConfig) (db db2 : DB δ) (n : Nat)
    (h : insert_usda_package p package cfg db = .ok (db2, n)) : n = 0 := by
  unfold insert_usda_package at h
  split at h
  · exact Except.noConfusion h
  · injection h with h1
    exact (congrArg Prod.snd h1).symm

theorem claim_c9_witness : (0 : Nat) = 0 :=
  claim_c9_returns_zero wParse wPkg wCfg wDB wDB1 0 (by decide)

/-- Claim C10: supplying exactly one of `start_date`/`end_date` to
`fetch_releases_by_identifier` yields an error with no network request
issued, and the date-range query parameters are sent exactly when both
bounds are supplied. -/
theorem claim_c10_esmis_bounds_together (net : String → Except String (List ESMISRelease))
    (identifier : String) (s e : Ymd) :
    (∀ ed, fetch_releases_by_identifier net identifier none (some ed) =
      (.error "start_date and end_date must be specified together, or not at all.", [])) ∧
    (∀ sd, fetch_releases_by_identifier net identifier (some sd) none =
      (.error "start_date and end_date must be specified together, or not at all.", [])) ∧
    (fetch_releases_by_identifier net identifier (some s) (some e)).2 =
      [esmisApiRoot ++ "/release/findByIdentifier/" ++ identifier ++
        "?start_date=" ++ fmtYmdDash s ++ "&end_date=" ++ fmtYmdDash e] ∧
    (fetch_releases_by_identifier net identifier none none).2 =
      [esmisApiRoot ++ "/release/findByIdentifier/" ++ identifier] := by
  refine ⟨fun ed => rfl, fun sd => rfl, ?_, ?_⟩
  · unfold fetch_releases_by_identifier esmisTargetUrl
    dsimp only
    split
    · rfl
    · split <;> rfl
  · unfold fetch_releases_by_identifier esmisTargetUrl
    dsimp only
    split
    · rfl
    · split <;> rfl

/-- Claim C8: a result row whose configured date column is present but null
is skipped and contributes no Record, while the remaining rows of the same
response are processed unchanged. -/
theorem claim_c8_null_date_row_skipped (lookup : String) (sec : DatamartSection)
    (entry : RRow) (rest : List RRow) (h : rGet entry lookup = some none) :
    processDatamartRow lookup sec entry = .skip ∧
    processDatamartRows lookup sec (entry :: rest) = processDatamartRows lookup sec rest := by
  have h1 : processDatamartRow lookup sec entry = .skip := by
    unfold processDatamartRow
    rw [h]
  refine ⟨h1, ?_⟩
  simp only [processDatamartRows]
  rw [h1]


theorem claim_c8_witness :
    processDatamartRow "report_date" wSec wNullDateRow = .skip ∧
    processDatamartRows "report_date" wSec (wNullDateRow :: [wGoodRow]) =
      processDatamartRows "report_date" wSec [wGoodRow] :=
  claim_c8_null_date_row_skipped "report_date" wSec wNullDateRow [wGoodRow] (by decide)

/-! ### Map-insert lemmas -/

theorem lookupEntry_insertEntry_self (es : List (String × String)) (k v : String) :
    lookupEntry (insertEntry es k v) k = some v := by
  induction es with
  | nil => simp [insertEntry, lookupEntry]
  | cons e rest ih =>
    by_cases hk : e.1 = k
    · simp [insertEntry, hk, lookupEntry]
    · simp [insertEntry, hk, lookupEntry, ih]

theorem lookupEntry_insertEntry_ne (es : List (String × String)) (k v c : String)
    (h : c ≠ k) : lookupEntry (insertEntry es k v) c = lookupEntry es c := by
  induction es with
  | nil =>
    simp only [insertEntry, lookupEntry]
    rw [if_neg (fun hh => h hh.symm)]
  | cons e rest ih =>
    by_cases hk : e.1 = k
    · simp only [insertEntry, if_pos hk, lookupEntry]
      rw [if_neg (fun hh => h hh.symm), if_neg (by rw [hk]; exact fun hh => h hh.symm)]
    · simp only [insertEntry, if_neg hk, lookupEntry]
      by_cases hc : e.1 = c
      · rw [if_pos hc, if_pos hc]
      · rw [if_neg hc, if_neg hc, ih]

/-- What the field-column loop guarantees: every declared column that the
loop completed over maps to its `fieldValue`, and undeclared keys are left
as in the incoming accumulator. -/
theorem datamartFields_spec (entry : RRow) :
    ∀ (fields : List String) (es l : List (String × String)),
      datamartFields fields entry es = some l →
      (∀ c ∈ fields, lookupEntry l c = some (fieldValue entry c)) ∧
      (∀ c, c ∉ fields → lookupEntry l c = lookupEntry es c) := by
  intro fields
  induction fields with
  | nil =>
    intro es l h
    injection h with h
    subst h
    exact ⟨by simp, fun c _ => rfl⟩
  | cons c0 rest ih =>
    intro es l h
    unfold datamartFields at h
    cases hg : rGet entry c0 with
    | none => rw [hg] at h; exact Option.noConfusion h
    | some v =>
      rw [hg] at h
      obtain ⟨h1, h2⟩ := ih _ _ h
      constructor
      · intro c hc
        rcases List.mem_cons.mp hc with hc0 | hcr
        · subst hc0
          by_cases hcr2 : c ∈ rest
          · exact h1 _ hcr2
          · rw [h2 _ hcr2, lookupEntry_insertEntry_self]
            cases v <;> simp [fieldValue, hg]
        · exact h1 _ hcr
      · intro c hc
        have hc0 : c ≠ c0 := fun hh => hc (hh ▸ List.mem_cons_self _ _)
        have hcr : c ∉ rest := fun hh => hc (List.mem_cons_of_mem _ hh)
        rw [h2 _ hcr, lookupEntry_insertEntry_ne _ _ _ _ hc0]

/-- Claim C7 (counterexample): a result row that is not skipped (its date
is present and parses) but lacks the declared field column entirely does
not produce a Record with an empty-string entry; `entry[column]` panics and
the row processing crashes. -/
theorem claim_c7_counterexample :
    processDatamartRow "report_date" wSec wMissingFieldRow =
      .crash "key not found in response row (field column)" ∧
    ∀ s, processDatamartRow "report_date" wSec wMissingFieldRow ≠ .record s := by
  have h1 : processDatamartRow "report_date" wSec wMissingFieldRow =
      .crash "key not found in response row (field column)" := by decide
  exact ⟨h1, fun s hs => RowResult.noConfusion (h1.symm.trans hs)⟩

/-- Claim C7 (amended): whenever a result row produces a Record, every
field column declared in the section schema was present in the row, and the
Record's entries map it to the response's string value verbatim, with the
empty string substituted only for a present-but-null value (a missing
column instead panics; see the counterexample). -/
theorem claim_c7_field_columns_verbatim (lookup : String) (sec : DatamartSection)
    (entry : RRow) (s : USDADataPackageSection Ymd)
    (h : processDatamartRow lookup sec entry = .record s) :
    ∀ c ∈ sec.fields, lookupEntry s.entries c = some (fieldValue entry c) := by
  unfold processDatamartRow at h
  split at h
  · exact RowResult.noConfusion h
  · exact RowResult.noConfusion h
  · split at h
    · exact RowResult.noConfusion h
    · split at h
      · exact RowResult.noConfusion h
      · next es hf =>
        split at h
        · exact RowResult.noConfusion h
        · exact RowResult.noConfusion h
        · injection h with h2
          subst h2
          intro c hc
          exact (datamartFields_spec entry sec.fields [] es hf).1 c hc

theorem claim_c7_witness :
    lookupEntry wGoodRec.entries "price" = some (fieldValue wGoodRow "price") :=
  claim_c7_field_columns_verbatim "report_date" wSec wGoodRow wGoodRec (by decide)
    "price" (by decide)

/-! ### Conflict-ignore idempotence -/

theorem hasKey_insertIgnore {δ : Type} [DecidableEq δ] (tbl : List (Row δ)) (r : Row δ)
    (k : δ × List String) (h : hasKey tbl k = true) :
    hasKey (insertIgnore tbl r) k = true := by
  unfold insertIgnore
  split
  · exact h
  · unfold hasKey at h ⊢
    rw [List.any_append]
    simp [h]

theorem hasKey_insertIgnore_self {δ : Type} [DecidableEq δ] (tbl : List (Row δ)) (r : Row δ) :
    hasKey (insertIgnore tbl r) (rowKey r) = true := by
  unfold insertIgnore
  split
  · next h => exact h
  · unfold hasKey
    rw [List.any_append]
    simp

theorem hasKey_foldl {δ : Type} [DecidableEq δ] (rows : List (Row δ)) :
    ∀ (tbl : List (Row δ)) k, hasKey tbl k = true →
      hasKey (rows.foldl insertIgnore tbl) k = true := by
  induction rows with
  | nil => intro tbl k h; exact h
  | cons r rest ih => intro tbl k h; exact ih _ _ (hasKey_insertIgnore _ _ _ h)

theorem hasKey_foldl_mem {δ : Type} [DecidableEq δ] (rows : List (Row δ)) :
    ∀ (tbl : List (Row δ)) (r : Row δ), r ∈ rows →
      hasKey (rows.foldl insertIgnore tbl) (rowKey r) = true := by
  induction rows with
  | nil => intro tbl r h; cases h
  | cons q rest ih =>
    intro tbl r h
    rcases List.mem_cons.mp h with h0 | hr
    · subst h0
      exact hasKey_foldl rest _ _ (hasKey_insertIgnore_self _ _)
    · exact ih _ _ hr

theorem foldl_insertIgnore_id {δ : Type} [DecidableEq δ] (rows : List (Row δ)) :
    ∀ (tbl : List (Row δ)), (∀ r ∈ rows, hasKey tbl (rowKey r) = true) →
      rows.foldl insertIgnore tbl = tbl := by
  induction rows with
  | nil => intro tbl _; rfl
  | cons q rest ih =>
    intro tbl h
    have hq : insertIgnore tbl q = tbl := by
      unfold insertIgnore
      simp [h q (List.mem_cons_self _ _)]
    rw [List.foldl_cons, hq]
    exact ih _ (fun r hr => h r (List.mem_cons_of_mem _ hr))

theorem hasKey_sectionFold {δ : Type} [DecidableEq δ] (p : String → Option ℚ)
    (results : List (USDADataPackageSection δ)) :
    ∀ (tbl : List (Row δ)) k, hasKey tbl k = true →
      hasKey (results.foldl (fun acc rec => (recordRows p rec).foldl insertIgnore acc) tbl) k
        = true := by
  induction results with
  | nil => intro tbl k h; exact h
  | cons rec rest ih => intro tbl k h; exact ih _ _ (hasKey_foldl _ _ _ h)

theorem hasKey_sectionFold_mem {δ : Type} [DecidableEq δ] (p : String → Option ℚ)
    (results : List (USDADataPackageSection δ)) :
    ∀ (tbl : List (Row δ)) (rec : USDADataPackageSection δ) (r : Row δ),
      rec ∈ results → r ∈ recordRows p rec →
      hasKey (results.foldl (fun acc rec => (recordRows p rec).foldl insertIgnore acc) tbl)
        (rowKey r) = true := by
  induction results with
  | nil => intro tbl rec r h _; cases h
  | cons q rest ih =>
    intro tbl rec r h hr
    rcases List.mem_cons.mp h with h0 | hmem
    · subst h0
      exact hasKey_sectionFold p rest _ _ (hasKey_foldl_mem _ _ _ hr)
    · exact ih _ _ _ hmem hr

theorem sectionFold_id {δ : Type} [DecidableEq δ] (p : String → Option ℚ)
    (results : List (USDADataPackageSection δ)) :
    ∀ (tbl : List (Row δ)),
      (∀ rec ∈ results, ∀ r ∈ recordRows p rec, hasKey tbl (rowKey r) = true) →
      results.foldl (fun acc rec => (recordRows p rec).foldl insertIgnore acc) tbl = tbl := by
  induction results with
  | nil => intro tbl _; rfl
  | cons q rest ih =>
    intro tbl h
    rw [List.foldl_cons, foldl_insertIgnore_id _ _ (h q (List.mem_cons_self _ _))]
    exact ih _ (fun rec hrec r hr => h rec (List.mem_cons_of_mem _ hrec) r hr)

theorem dbGet_dbSet_self {δ : Type} (db : DB δ) (t : String) (rows tbl : List (Row δ))
    (h : dbGet db t = some tbl) : dbGet (dbSet db t rows) t = some rows := by
  induction db with
  | nil => exact Option.noConfusion h
  | cons e rest ih =>
    unfold dbGet at h
    unfold dbSet
    by_cases he : e.1 = t
    · rw [if_pos he]
      unfold dbGet
      rw [if_pos he]
    · rw [if_neg he]
      unfold dbGet
      rw [if_neg he]
      rw [if_neg he] at h
      exact ih h

theorem dbGet_dbSet_ne {δ : Type} (db : DB δ) (t t2 : String) (rows : List (Row δ))
    (h : t2 ≠ t) : dbGet (dbSet db t rows) t2 = dbGet db t2 := by
  induction db with
  | nil => rfl
  | cons e rest ih =>
    unfold dbSet
    by_cases he : e.1 = t
    · rw [if_pos he]
      unfold dbGet
      rw [if_neg (by rw [he]; exact fun hh => h hh.symm),
        if_neg (by rw [he]; exact fun hh => h hh.symm)]
    · rw [if_neg he]
      unfold dbGet
      by_cases he2 : e.1 = t2
      · rw [if_pos he2, if_pos he2]
      · rw [if_neg he2, if_neg he2, ih]

theorem dbSet_get_self {δ : Type} (db : DB δ) (t : String) (tbl : List (Row δ))
    (h : dbGet db t = some tbl) : dbSet db t tbl = db := by
  induction db with
  | nil => rfl
  | cons e rest ih =>
    unfold dbGet at h
    unfold dbSet
    by_cases he : e.1 = t
    · rw [if_pos he] at h
      rw [if_pos he]
      injection h with h2
      rw [← h2, Prod.mk.eta]
    · rw [if_neg he] at h
      rw [if_neg he, ih h]

theorem dbExtends_trans {δ : Type} [DecidableEq δ] {a b c : DB δ}
    (h1 : dbExtends a b) (h2 : dbExtends b c) : dbExtends a c := by
  intro t tbl hget
  obtain ⟨tbl2, hget2, hk2⟩ := h1 t tbl hget
  obtain ⟨tbl3, hget3, hk3⟩ := h2 t tbl2 hget2
  exact ⟨tbl3, hget3, fun k hk => hk3 k (hk2 k hk)⟩

theorem processSection_extends {δ : Type} [DecidableEq δ] (p : String → Option ℚ)
    (cfg : DatamartConfig) (rn sn : String) (results : List (USDADataPackageSection δ))
    (db db2 : DB δ) (h : processSection p cfg rn db sn results = .ok db2) :
    dbExtends db db2 := by
  unfold processSection at h
  split at h
  · exact Except.noConfusion h
  · next secCfg hsec =>
    split at h
    · exact Except.noConfusion h
    · next tbl htbl =>
      injection h with h2
      subst h2
      intro t2 tbl2 hget
      by_cases ht : t2 = tableName rn sn secCfg
      · subst ht
        have heq : tbl2 = tbl := Option.some.inj (hget.symm.trans htbl)
        subst heq
        exact ⟨_, dbGet_dbSet_self _ _ _ _ htbl, fun k hk => hasKey_sectionFold p _ _ _ hk⟩
      · exact ⟨tbl2, by rw [dbGet_dbSet_ne _ _ _ _ ht]; exact hget, fun k hk => hk⟩

theorem processSections_extends {δ : Type} [DecidableEq δ] (p : String → Option ℚ)
    (cfg : DatamartConfig) (rn : String)
    (secs : List (String × List (USDADataPackageSection δ))) :
    ∀ (db db2 : DB δ), processSections p cfg rn secs db = .ok db2 → dbExtends db db2 := by
  induction secs with
  | nil =>
    intro db db2 h
    injection h with h2
    subst h2
    exact fun t tbl hget => ⟨tbl, hget, fun k hk => hk⟩
  | cons s rest ih =>
    intro db db2 h
    obtain ⟨sn, results⟩ := s
    unfold processSections at h
    split at h
    · exact Except.noConfusion h
    · next db1 hps =>
      exact dbExtends_trans (processSection_extends p cfg rn sn results db db1 hps) (ih db1 db2 h)

theorem processSection_replay {δ : Type} [DecidableEq δ] (p : String → Option ℚ)
    (cfg : DatamartConfig) (rn sn : String) (results : List (USDADataPackageSection δ))
    (db db1 dbF : DB δ) (h1 : processSection p cfg rn db sn results = .ok db1)
    (hext : dbExtends db1 dbF) :
    processSection p cfg rn dbF sn results = .ok dbF := by
  unfold processSection at h1 ⊢
  split at h1
  · exact Except.noConfusion h1
  · next secCfg hsec =>
    split at h1
    · exact Except.noConfusion h1
    · next tbl htbl =>
      injection h1 with h2
      subst h2
      have hget1 :
          dbGet (dbSet db (tableName rn sn secCfg)
            (results.foldl (fun acc rec => (recordRows p rec).foldl insertIgnore acc) tbl))
            (tableName rn sn secCfg) = some
            (results.foldl (fun acc rec => (recordRows p rec).foldl insertIgnore acc) tbl) :=
        dbGet_dbSet_self _ _ _ _ htbl
      obtain ⟨tblF, hgetF, hkeys⟩ := hext _ _ hget1
      simp only [hgetF]
      have hall : ∀ rec ∈ results, ∀ r ∈ recordRows p rec, hasKey tblF (rowKey r) = true :=
        fun rec hrec r hr => hkeys _ (hasKey_sectionFold_mem p results tbl rec r hrec hr)
      rw [sectionFold_id p results tblF hall, dbSet_get_self _ _ _ hgetF]

theorem processSections_replay {δ : Type} [DecidableEq δ] (p : String → Option ℚ)
    (cfg : DatamartConfig) (rn : String)
    (secs : List (String × List (USDADataPackageSection δ))) :
    ∀ (db dbF : DB δ), processSections p cfg rn secs db = .ok dbF →
      processSections p cfg rn secs dbF = .ok dbF := by
  induction secs with
  | nil =>
    intro db dbF h
    injection h with h2
    subst h2
    rfl
  | cons s rest ih =>
    intro db dbF h
    obtain ⟨sn, results⟩ := s
    unfold processSections at h ⊢
    split at h
    · exact Except.noConfusion h
    · next db1 hps =>
      have hext1 : dbExtends db1 dbF := processSections_extends p cfg rn rest db1 dbF h
      simp only [processSection_replay p cfg rn sn results db db1 dbF hps hext1]
      exact ih db1 dbF h

/-- Claim C1: persisting a Package twice against the same store leaves the
store in the same state and returns the same row count as persisting it
once — every generated insert is conflict-ignore against the table's
primary-key constraint, so re-inserting an already-present row is a no-op. -/
theorem claim_c1_idempotent_upsert {δ : Type} [DecidableEq δ] (p : String → Option ℚ)
    (package : USDADataPackage δ) (cfg : DatamartConfig) (db db2 : DB δ) (n : Nat)
    (h : insert_usda_package p package cfg db = .ok (db2, n)) :
    insert_usda_package p package cfg db2 = .ok (db2, n) := by
  unfold insert_usda_package at h ⊢
  split at h
  · exact Except.noConfusion h
  · next dbX hps =>
    injection h with h2
    injection h2 with ha hb
    subst ha
    subst hb
    simp only [processSections_replay p cfg package.name package.sections db dbX hps]

theorem claim_c1_witness :
    insert_usda_package wParse wPkg wCfg wDB1 = .ok (wDB1, 0) :=
  claim_c1_idempotent_upsert wParse wPkg wCfg wDB wDB1 0 (by decide)

/-! ### Watermark maximum characterization -/

theorem sqlMaxStep_spec (acc : Option Int) (r : Row Int) :
    ∃ m, sqlMaxStep acc r = some m ∧
      m ∈ optToList acc ++ [r.report_date] ∧
      ∀ d ∈ optToList acc ++ [r.report_date], d ≤ m := by
  cases acc with
  | none =>
    refine ⟨r.report_date, rfl, by simp [optToList], ?_⟩
    intro d hd
    simp [optToList] at hd
    omega
  | some a =>
    refine ⟨max a r.report_date, rfl, ?_, ?_⟩
    · rcases max_choice a r.report_date with hm | hm <;> simp [optToList, hm]
    · intro d hd
      simp [optToList] at hd
      rcases hd with hd | hd <;> subst hd
      · exact le_max_left _ _
      · exact le_max_right _ _

theorem sqlMaxFold_spec (rows : List (Row Int)) :
    ∀ acc : Option Int,
      (rows.foldl sqlMaxStep acc = none → acc = none ∧ rows = []) ∧
      (∀ m, rows.foldl sqlMaxStep acc = some m →
        m ∈ optToList acc ++ rows.map (fun r => r.report_date) ∧
        ∀ d ∈ optToList acc ++ rows.map (fun r => r.report_date), d ≤ m) := by
  induction rows with
  | nil =>
    intro acc
    refine ⟨fun h => ⟨h, rfl⟩, ?_⟩
    intro m h
    simp only [List.foldl_nil] at h
    subst h
    simp [optToList]
  | cons r rest ih =>
    intro acc
    rw [List.foldl_cons]
    obtain ⟨m0, hstep, hm0mem, hm0le⟩ := sqlMaxStep_spec acc r
    refine ⟨?_, ?_⟩
    · intro h
      obtain ⟨h1, _⟩ := (ih (sqlMaxStep acc r)).1 h
      rw [hstep] at h1
      exact Option.noConfusion h1
    · intro m h
      obtain ⟨hmem, hle⟩ := (ih (sqlMaxStep acc r)).2 m h
      rw [hstep] at hmem hle
      have hm0m : m0 ≤ m := hle m0 (by simp [optToList])
      constructor
      · rcases List.mem_append.mp hmem with hm | hm
        · have hm2 : m = m0 := by simpa [optToList] using hm
          subst hm2
          rcases List.mem_append.mp hm0mem with h2 | h2
          · exact List.mem_append.mpr (Or.inl h2)
          · refine List.mem_append.mpr (Or.inr ?_)
            rw [List.map_cons]
            exact List.mem_cons.mpr (Or.inl (by simpa using h2))
        · refine List.mem_append.mpr (Or.inr ?_)
          rw [List.map_cons]
          exact List.mem_cons.mpr (Or.inr hm)
      · intro d hd
        rcases List.mem_append.mp hd with hd | hd
        · exact le_trans (hm0le d (List.mem_append.mpr (Or.inl hd))) hm0m
        · rw [List.map_cons] at hd
          rcases List.mem_cons.mp hd with hd | hd
          · exact le_trans (hm0le d (List.mem_append.mpr (Or.inr (by simpa using hd)))) hm0m
          · exact hle d (List.mem_append.mpr (Or.inr hd))

theorem optToList_mem {o : Option Int} {x : Int} (h : x ∈ optToList o) : o = some x := by
  cases o with
  | none => simp [optToList] at h
  | some a =>
    simp [optToList] at h
    exact h ▸ rfl

theorem combineAcc_spec (acc v : Option Int) :
    (combineAcc acc v = none → acc = none ∧ v = none) ∧
    (∀ m, combineAcc acc v = some m →
      m ∈ optToList acc ++ optToList v ∧ ∀ d ∈ optToList acc ++ optToList v, d ≤ m) := by
  cases acc with
  | none =>
    cases v with
    | none => exact ⟨fun _ => ⟨rfl, rfl⟩, fun m h => Option.noConfusion h⟩
    | some b =>
      refine ⟨fun h => Option.noConfusion h, ?_⟩
      intro m h
      injection h with h2
      subst h2
      refine ⟨by simp [optToList], ?_⟩
      intro d hd
      simp [optToList] at hd
      omega
  | some a =>
    cases v with
    | none =>
      refine ⟨fun h => Option.noConfusion h, ?_⟩
      intro m h
      injection h with h2
      subst h2
      refine ⟨by simp [optToList], ?_⟩
      intro d hd
      simp [optToList] at hd
      omega
    | some b =>
      have hred : combineAcc (some a) (some b) = if a < b then some b else some a := rfl
      constructor
      · intro h
        exfalso
        rw [hred] at h
        split at h <;> exact Option.noConfusion h
      · intro m h
        rw [hred] at h
        split at h
        · next hlt =>
          injection h with h2
          subst h2
          refine ⟨by simp [optToList], ?_⟩
          intro d hd
          simp [optToList] at hd
          rcases hd with hd | hd <;> omega
        · next hnlt =>
          injection h with h2
          subst h2
          refine ⟨by simp [optToList], ?_⟩
          intro d hd
          simp [optToList] at hd
          rcases hd with hd | hd <;> omega

theorem combineAcc_isSome_left (a : Int) (v : Option Int) :
    ∃ m, combineAcc (some a) v = some m := by
  cases v with
  | none => exact ⟨a, rfl⟩
  | some b =>
    by_cases h : a < b
    · exact ⟨b, by simp [combineAcc, h]⟩
    · exact ⟨a, by simp [combineAcc, h]⟩

theorem combineAcc_isSome_right (acc : Option Int) (b : Int) :
    ∃ m, combineAcc acc (some b) = some m := by
  cases acc with
  | none => exact ⟨b, rfl⟩
  | some a =>
    by_cases h : a < b
    · exact ⟨b, by simp [combineAcc, h]⟩
    · exact ⟨a, by simp [combineAcc, h]⟩

theorem findMaxGo_spec (rn : String) (db : DB Int) (secs : List (String × DatamartSection)) :
    ∀ (acc : Option Int) (D : Int), findMaxGo rn db secs acc = .ok D →
      D ∈ optToList acc ++ sectionDatesGo rn db secs ∧
      ∀ d ∈ optToList acc ++ sectionDatesGo rn db secs, d ≤ D := by
  induction secs with
  | nil =>
    intro acc D h
    unfold findMaxGo at h
    split at h
    · injection h with h2
      subst h2
      refine ⟨by simp [optToList, sectionDatesGo], ?_⟩
      intro d hd
      simp [optToList, sectionDatesGo] at hd
      omega
    · exact Except.noConfusion h
  | cons s rest ih =>
    intro acc D h
    obtain ⟨sn, sec⟩ := s
    unfold findMaxGo at h
    split at h
    · exact Except.noConfusion h
    · next rows hget =>
      obtain ⟨hmem, hle⟩ := ih (combineAcc acc (sqlMaxDate rows)) D h
      have hdates : sectionDatesGo rn db ((sn, sec) :: rest) =
          (rows.map fun r => r.report_date) ++ sectionDatesGo rn db rest := by
        simp only [sectionDatesGo, hget]
      rw [hdates]
      constructor
      · rcases List.mem_append.mp hmem with hm | hm
        · have hc : combineAcc acc (sqlMaxDate rows) = some D := optToList_mem hm
          obtain ⟨hcm, _⟩ := (combineAcc_spec acc (sqlMaxDate rows)).2 D hc
          rcases List.mem_append.mp hcm with h2 | h2
          · exact List.mem_append.mpr (Or.inl h2)
          · have hs : sqlMaxDate rows = some D := optToList_mem h2
            obtain ⟨hsm, _⟩ := (sqlMaxFold_spec rows none).2 D hs
            refine List.mem_append.mpr (Or.inr (List.mem_append.mpr (Or.inl ?_)))
            simpa [optToList] using hsm
        · exact List.mem_append.mpr (Or.inr (List.mem_append.mpr (Or.inr hm)))
      · intro d hd
        rcases List.mem_append.mp hd with hd | hd
        · have hacc : acc = some d := optToList_mem hd
          obtain ⟨m, hm⟩ := combineAcc_isSome_left d (sqlMaxDate rows)
          rw [← hacc] at hm
          obtain ⟨_, hcle⟩ := (combineAcc_spec acc (sqlMaxDate rows)).2 m hm
          have hdm : d ≤ m := hcle d (by rw [hacc]; simp [optToList])
          have hmD : m ≤ D := hle m (by rw [hm]; simp [optToList])
          omega
        · rcases List.mem_append.mp hd with hd | hd
          · have hne : ∃ v, sqlMaxDate rows = some v := by
              cases hs : sqlMaxDate rows with
              | none =>
                obtain ⟨_, hempty⟩ := (sqlMaxFold_spec rows none).1 hs
                subst hempty
                simp at hd
              | some v => exact ⟨v, rfl⟩
            obtain ⟨v, hv⟩ := hne
            obtain ⟨_, hsle⟩ := (sqlMaxFold_spec rows none).2 v hv
            have hdv : d ≤ v := hsle d (by simpa [optToList] using hd)
            obtain ⟨m, hm⟩ := combineAcc_isSome_right acc v
            rw [← hv] at hm
            obtain ⟨_, hcle⟩ := (combineAcc_spec acc (sqlMaxDate rows)).2 m hm
            have hvm : v ≤ m := by
              apply hcle v
              rw [hv]
              simp [optToList]
            have hmD : m ≤ D := hle m (by rw [hm]; simp [optToList])
            omega
          · exact hle d (List.mem_append.mpr (Or.inr hd))

/-- Claim C3: for a configured source whose persisted watermark `D` is the
maximum `report_date` over every section table, and current local date `T`:
when `T ≥ D + 1` the incremental fetch queries exactly the window
`[D + 1, T]` (the `minimum_date:today` range URL of `process_datamart`);
when `T < D + 1` no network request is issued that cycle. -/
theorem claim_c3_incremental_window (epoch : Int) (cfg : DatamartConfig) (db : DB Int)
    (D T : Int) (h : find_maximum_existing_datamart_date cfg db = .ok D) :
    (D ∈ sectionTableDates cfg db ∧ ∀ d ∈ sectionTableDates cfg db, d ≤ D) ∧
    (D + 1 ≤ T →
      syncDatamartSource epoch cfg db T = some (datamartQueryMode none (some (D + 1)) T) ∧
      datamartQueryMode none (some (D + 1)) T = .range (D + 1) T) ∧
    (T < D + 1 → syncDatamartSource epoch cfg db T = none) := by
  refine ⟨?_, ?_, ?_⟩
  · have hs := findMaxGo_spec cfg.name db cfg.sections none D h
    constructor
    · have := hs.1
      simpa [optToList, sectionTableDates] using this
    · intro d hd
      exact hs.2 d (by simpa [optToList, sectionTableDates] using hd)
  · intro hT
    refine ⟨?_, rfl⟩
    unfold syncDatamartSource
    simp only [h]
    rw [if_pos hT]
  · intro hT
    unfold syncDatamartSource
    simp only [h]
    rw [if_neg (show ¬(D + 1 ≤ T) by omega)]

/-! ### Uniform report-date lemmas for the text parse -/

theorem pushSection_mem {δ : Type} (secs : List (String × List (USDADataPackageSection δ)))
    (name : String) (s : USDADataPackageSection δ) :
    ∀ e ∈ pushSection secs name s, ∀ r ∈ e.2, (∃ e2 ∈ secs, r ∈ e2.2) ∨ r = s := by
  induction secs with
  | nil =>
    intro e he r hr
    simp only [pushSection, List.mem_singleton] at he
    subst he
    simp only [List.mem_singleton] at hr
    exact Or.inr hr
  | cons q rest ih =>
    intro e he r hr
    unfold pushSection at he
    split at he
    · rcases List.mem_cons.mp he with he0 | her
      · rw [he0] at hr
        rcases List.mem_append.mp hr with h1 | h1
        · exact Or.inl ⟨q, List.mem_cons_self _ _, h1⟩
        · exact Or.inr (by simpa using h1)
      · exact Or.inl ⟨e, List.mem_cons_of_mem _ her, hr⟩
    · rcases List.mem_cons.mp he with he0 | her
      · exact Or.inl ⟨q, List.mem_cons_self _ _, he0 ▸ hr⟩
      · rcases ih e her r hr with ⟨e2, he2, hr2⟩ | hs
        · exact Or.inl ⟨e2, List.mem_cons_of_mem _ he2, hr2⟩
        · exact Or.inr hs

theorem lmxbDelivery_dates (cv : String → Option (String × String)) (ta : List String)
    (rd : Ymd) (secs : List (String × List (USDADataPackageSection Ymd)))
    (pkg : USDADataPackage Ymd) (h : lmxbDelivery cv ta rd secs = .ok pkg) :
    ∀ e ∈ pkg.sections, ∀ r ∈ e.2, (∃ e2 ∈ secs, r ∈ e2.2) ∨ r.report_date = rd := by
  unfold lmxbDelivery at h
  split at h
  · injection h with h2
    subst h2
    intro e he r hr
    exact Or.inl ⟨e, he, hr⟩
  · split at h
    · exact Except.noConfusion h
    · split at h
      · exact Except.noConfusion h
      · next es hlv =>
        injection h with h2
        subst h2
        intro e he r hr
        rcases pushSection_mem secs "delivery" (lmxbSection rd es) e he r hr with h3 | h3
        · exact Or.inl h3
        · subst h3
          exact Or.inr rfl

theorem lmxbDestination_dates (cd cv : String → Option (String × String)) (ta : List String)
    (rd : Ymd) (secs : List (String × List (USDADataPackageSection Ymd)))
    (pkg : USDADataPackage Ymd) (h : lmxbDestination cd cv ta rd secs = .ok pkg) :
    ∀ e ∈ pkg.sections, ∀ r ∈ e.2, (∃ e2 ∈ secs, r ∈ e2.2) ∨ r.report_date = rd := by
  unfold lmxbDestination at h
  split at h
  · exact lmxbDelivery_dates cv ta rd secs pkg h
  · split at h
    · exact Except.noConfusion h
    · split at h
      · exact Except.noConfusion h
      · next es hlv =>
        intro e he r hr
        rcases lmxbDelivery_dates cv ta rd _ pkg h e he r hr with ⟨e2, he2, hr2⟩ | h3
        · rcases pushSection_mem secs "destination" (lmxbSection rd es) e2 he2 r hr2 with h4 | h4
          · exact Or.inl h4
          · subst h4
            exact Or.inr rfl
        · exact Or.inr h3

/-- Claim C6: every Record of a successfully parsed LM_XB463 bulletin
carries the single report date parsed from the `For Week Ending:` anchor
line, and a missing anchor or an unparsable month/day/4-digit-year date
there makes the whole parse fail with an error, so no Package is
produced. -/
theorem claim_c6_uniform_report_date (cp : String → Option PrimalCaps)
    (cq cs cd cv : String → Option (String × String)) (text : String) :
    (∀ pkg, lmxb463_text_parse cp cq cs cd cv text = .ok pkg →
      ∃ loc rd, find_line_starts_with (rustSplitTerminator text) "For Week Ending:" = some loc ∧
        captureDateMDY4 ((rustSplitTerminator text).getD loc "") = some rd ∧
        ∀ e ∈ pkg.sections, ∀ r ∈ e.2, r.report_date = rd) ∧
    (find_line_starts_with (rustSplitTerminator text) "For Week Ending:" = none →
      lmxb463_text_parse cp cq cs cd cv text = .error "Failed to find date line") ∧
    (∀ loc, find_line_starts_with (rustSplitTerminator text) "For Week Ending:" = some loc →
      captureDateMDY4 ((rustSplitTerminator text).getD loc "") = none →
      lmxb463_text_parse cp cq cs cd cv text =
        .error "Failed to parse date line for report, aborting.") := by
  refine ⟨?_, ?_, ?_⟩
  · intro pkg h
    unfold lmxb463_text_parse lmxb463_parse_lines at h
    split at h
    · exact Except.noConfusion h
    · next dateLoc hfind =>
      split at h
      · exact Except.noConfusion h
      · next rd hdate =>
        refine ⟨dateLoc, rd, hfind, hdate, ?_⟩
        split at h
        · exact Except.noConfusion h
        · next loadsLoc hloads =>
          split at h
          · exact Except.noConfusion h
          · next total_loads htl =>
            split at h
            · exact Except.noConfusion h
            · next cutLoc hcut =>
              split at h
              · exact Except.noConfusion h
              · next cutLines hslice =>
                split at h
                · exact Except.noConfusion h
                · next q0 hq0 =>
                  split at h
                  · exact Except.noConfusion h
                  · next qLines hqslice =>
                    split at h
                    · exact Except.noConfusion h
                    · next qEntries hqe =>
                      split at h
                      · exact Except.noConfusion h
                      · next s0 hs0 =>
                        split at h
                        · exact Except.noConfusion h
                        · next sLines hsslice =>
                          split at h
                          · exact Except.noConfusion h
                          · next sEntries hsen =>
                            intro e he r hr
                            rcases lmxbDestination_dates cd cv _ rd _ pkg h e he r hr with
                              ⟨e2, he2, hr2⟩ | h3
                            · rcases pushSection_mem _ "sales_type"
                                  (lmxbSection rd sEntries) e2 he2 r hr2 with ⟨e3, he3, hr3⟩ | hz
                              · rcases pushSection_mem _ "quality"
                                    (lmxbSection rd qEntries) e3 he3 r hr3 with ⟨e4, he4, hr4⟩ | hz
                                · rcases pushSection_mem [] "summary"
                                      (lmxbSection rd (primalEntries cp cutLines
                                        [("total_loads", total_loads)])) e4 he4 r hr4 with
                                    ⟨e5, he5, _⟩ | hz
                                  · exact absurd he5 (List.not_mem_nil _)
                                  · subst hz
                                    rfl
                                · subst hz
                                  rfl
                              · subst hz
                                rfl
                            · exact h3
  · intro hnone
    unfold lmxb463_text_parse lmxb463_parse_lines
    rw [hnone]
  · intro loc hfind hcap
    unfold lmxb463_text_parse lmxb463_parse_lines
    simp only [hfind]
    rw [hcap]

theorem claim_c6_witness :
    lmxb463_text_parse wCapPrimal wCapQuality wCapSales wCapDestination wCapDelivery
      wBulletinNoAnchor = .error "Failed to find date line" ∧
    lmxb463_text_parse wCapPrimal wCapQuality wCapSales wCapDestination wCapDelivery
      wBulletinBadDate = .error "Failed to parse date line for report, aborting." ∧
    (∀ e ∈ wBulletinPkg.sections, ∀ r ∈ e.2, r.report_date = (⟨2020, 3, 14⟩ : Ymd)) := by
  refine ⟨?_, ?_, ?_⟩
  · exact (claim_c6_uniform_report_date wCapPrimal wCapQuality wCapSales wCapDestination
      wCapDelivery wBulletinNoAnchor).2.1 (by decide)
  · exact (claim_c6_uniform_report_date wCapPrimal wCapQuality wCapSales wCapDestination
      wCapDelivery wBulletinBadDate).2.2 0 (by decide) (by decide)
  · obtain ⟨loc, rd, hfind, hcap, hall⟩ :=
      (claim_c6_uniform_report_date wCapPrimal wCapQuality wCapSales wCapDestination
        wCapDelivery wBulletin).1 wBulletinPkg (by decide)
    have hloc : loc = 0 := by
      have h0 : find_line_starts_with (rustSplitTerminator wBulletin) "For Week Ending:" =
          some 0 := by decide
      exact Option.some.inj (hfind.symm.trans h0)
    subst hloc
    have hrd : rd = ⟨2020, 3, 14⟩ := by
      have h0 : captureDateMDY4 ((rustSplitTerminator wBulletin).getD 0 "") =
          some ⟨2020, 3, 14⟩ := by decide
      exact Option.some.inj (hcap.symm.trans h0)
    subst hrd
    exact hall

theorem claim_c3_witness :
    ((737497 : Int) ∈ sectionTableDates wCfg wSyncDB ∧
      ∀ d ∈ sectionTableDates wCfg wSyncDB, d ≤ (737497 : Int)) ∧
    syncDatamartSource 0 wCfg wSyncDB 737500 =
      some (datamartQueryMode none (some 737498) 737500) ∧
    datamartQueryMode none (some 737498) 737500 = .range 737498 737500 ∧
    syncDatamartSource 0 wCfg wSyncDB 737497 = none := by
  have h : find_maximum_existing_datamart_date wCfg wSyncDB = .ok 737497 := by decide
  obtain ⟨h1, h2, _⟩ := claim_c3_incremental_window 0 wCfg wSyncDB 737497 737500 h
  obtain ⟨_, _, h3⟩ := claim_c3_incremental_window 0 wCfg wSyncDB 737497 737497 h
  obtain ⟨h4, h5⟩ := h2 (by omega)
  exact ⟨h1, h4, h5, h3 (by omega)⟩

end UsdaAcq
